import Mathlib

/-!
Shallow embedding of the crowny-price-server streaming aggregation engine
(src/server.py) and proofs about its specified behavior.

Prices are modelled as exact rationals; the fixed-point wire values
(scaled by 1e9) are integers. Python round(x, 2) is modelled as exact
round-half-to-even on hundredths. Python deques with maxlen are modelled
as lists with an evicting append. Wall-clock reads (time.time()) are
modelled by an explicit now parameter in seconds.
-/

namespace Crowny

/-- The two logical symbols served by the process (keys of symbols_data,
candle_history, current_candle and tick_buffer in server.py). -/
inductive Sym where
  | NQ
  | MNQ
deriving DecidableEq, Repr

/-- Pointwise update of a finite map modelled as a function
(dict assignment d[k] = v). -/
def updateAt {κ : Type} {α : Type} [DecidableEq κ] (f : κ → α) (k : κ) (v : α) : κ → α :=
  fun j => if j = k then v else f j

/-- Append to a Python collections.deque with the given maxlen: a full
deque evicts its oldest (leftmost) element. -/
def dequeAppend {α : Type} (maxlen : ℕ) (xs : List α) (x : α) : List α :=
  if xs.length < maxlen then xs ++ [x] else xs.tail ++ [x]

/-- Round a rational to the nearest integer, ties to even
(the rounding mode of Python round). -/
def roundHalfEven (x : ℚ) : ℤ :=
  let f : ℤ := ⌊x⌋
  let r : ℚ := x - (f : ℚ)
  if r < 1 / 2 then f
  else if 1 / 2 < r then f + 1
  else if f % 2 = 0 then f else f + 1

/-- Python round(x, 2): round to 2 decimal places, ties to even. -/
def pyRound2 (x : ℚ) : ℚ :=
  (roundHalfEven (x * 100) : ℚ) / 100

/-- Whether the pattern list occurs at the start of the haystack list. -/
def charsStartWith : List Char → List Char → Bool
  | _, [] => true
  | [], _ :: _ => false
  | h :: hs, p :: ps => h = p && charsStartWith hs ps

/-- Whether the pattern list occurs contiguously anywhere in the haystack. -/
def charsContain : List Char → List Char → Bool
  | [], pat => charsStartWith [] pat
  | h :: t, pat => charsStartWith (h :: t) pat || charsContain t pat

/-- Python substring test (pat in s). -/
def strContains (s pat : String) : Bool :=
  charsContain s.data pat.data

/-- Python str.upper() on the ASCII symbol parameters the endpoints
receive, character by character. -/
def pyUpper (s : String) : String :=
  ⟨s.data.map Char.toUpper⟩

/-- One price level of a decoded record: fixed-point best bid and ask
(record.levels[0].bid_px / ask_px). -/
structure Level where
  bid_px : ℤ
  ask_px : ℤ
deriving DecidableEq, Repr

/-- A decoded feed record. Option models Python attribute presence
(hasattr); a present field may still hold a falsy value such as 0. -/
structure Record where
  price : Option ℤ
  levels : Option (List Level)
  size : Option ℕ
  instrument_id : Option ℕ
  stype_in_symbol : Option String
  pretty_symbol : Option String
  raw_symbol : Option String
deriving DecidableEq, Repr

/-- Per-symbol live snapshot (one entry of symbols_data). last_update is
the formatted wall-clock string, modelled by the seconds value used to
format it. -/
structure SymbolData where
  price : Option ℚ
  bid : Option ℚ
  ask : Option ℚ
  volume : ℕ
  timestamp : Option ℕ
  last_update : Option ℕ
deriving DecidableEq, Repr

/-- One OHLCV minute candle (the dicts held in current_candle and
candle_history). -/
structure Candle where
  time : ℕ
  open_ : ℚ
  high : ℚ
  low : ℚ
  close : ℚ
  volume : ℕ
  tick_count : ℕ
deriving DecidableEq, Repr

/-- One tick-buffer entry. -/
structure Tick where
  time : ℕ
  price : ℚ
  volume : ℕ
deriving DecidableEq, Repr

/-- The whole mutable module state of server.py that the claims concern. -/
structure ServerState where
  symbols_data : Sym → SymbolData
  iid_to_symbol : ℕ → Option Sym
  candle_history : Sym → List Candle
  current_candle : Sym → Option Candle
  tick_buffer : Sym → List Tick

/-- Initial per-symbol live snapshot (all None, volume 0). -/
def initSymbolData : SymbolData :=
  { price := none, bid := none, ask := none, volume := 0,
    timestamp := none, last_update := none }

/-- Module state at process start. -/
def initState : ServerState :=
  { symbols_data := fun _ => initSymbolData,
    iid_to_symbol := fun _ => none,
    candle_history := fun _ => [],
    current_candle := fun _ => none,
    tick_buffer := fun _ => [] }

/-- get_candle_time: floor the epoch-seconds timestamp to its minute. -/
def get_candle_time (ts_seconds : ℕ) : ℕ :=
  ts_seconds / 60 * 60

/-- A fresh in-progress candle (the dict literal in update_candle);
volume or 1 turns a zero size into one unit. -/
def newCandle (candle_time : ℕ) (price : ℚ) (volume : ℕ) : Candle :=
  { time := candle_time, open_ := price, high := price, low := price,
    close := price, volume := if volume = 0 then 1 else volume, tick_count := 1 }

/-- The tick-buffer append at the end of update_candle (capacity 10000,
volume or 1). -/
def tickAppendState (st : ServerState) (symbol : Sym) (price : ℚ) (volume : ℕ)
    (ts_seconds : ℕ) : ServerState :=
  let tick : Tick :=
    { time := ts_seconds, price := price,
      volume := if volume = 0 then 1 else volume }
  let buf := dequeAppend 10000 (st.tick_buffer symbol) tick
  { st with tick_buffer := updateAt st.tick_buffer symbol buf }

/-- update_candle from server.py: in-candle spike guard, bucket rollover
with appending the finished candle to candle_history (capacity 1440),
same-bucket OHLCV update, then the unconditional-in-source tick append. -/
def update_candle (st : ServerState) (symbol : Sym) (price : ℚ) (volume : ℕ)
    (ts_seconds : ℕ) : ServerState :=
  let candle_time := get_candle_time ts_seconds
  match st.current_candle symbol with
  | some cc =>
    if cc.time = candle_time ∧ |price - (cc.high + cc.low) / 2| > 30 then
      st
    else if cc.time ≠ candle_time then
      let hist := updateAt st.candle_history symbol (dequeAppend 1440 (st.candle_history symbol) cc)
      let cur := updateAt st.current_candle symbol (some (newCandle candle_time price volume))
      let st1 := { st with candle_history := hist, current_candle := cur }
      tickAppendState st1 symbol price volume ts_seconds
    else
      let updated : Candle :=
        { cc with
          high := max cc.high price,
          low := min cc.low price,
          close := price,
          volume := cc.volume + (if volume = 0 then 1 else volume),
          tick_count := cc.tick_count + 1 }
      let st1 := { st with current_candle := updateAt st.current_candle symbol (some updated) }
      tickAppendState st1 symbol price volume ts_seconds
  | none =>
    let st1 := { st with current_candle := updateAt st.current_candle symbol (some (newCandle candle_time price volume)) }
    tickAppendState st1 symbol price volume ts_seconds

/-- Trade-price extraction (lines 93-97 of server.py): a present truthy
scaled price, divided down by 1e9, accepted above the 1000 plausibility
floor and stored rounded to 2 decimals. -/
def extract_trade_price (record : Record) : Option ℚ :=
  match record.price with
  | some rp =>
    if rp ≠ 0 then
      let p : ℚ := (rp : ℚ) / 1000000000
      if p > 1000 then some (pyRound2 p) else none
    else none
  | none => none

/-- Quote extraction (lines 99-109 of server.py): the first level's
bid/ask pair, scaled down; accepted only when both scaled values exceed
1000 and the spread ask - bid is below 10. Returns the unrounded pair. -/
def extract_quote (record : Record) : Option (ℚ × ℚ) :=
  match record.levels with
  | some (level :: _) =>
    let b : Option ℚ :=
      if level.bid_px ≠ 0 ∧ level.bid_px > 0
        then some ((level.bid_px : ℚ) / 1000000000) else none
    let a : Option ℚ :=
      if level.ask_px ≠ 0 ∧ level.ask_px > 0
        then some ((level.ask_px : ℚ) / 1000000000) else none
    match b, a with
    | some bv, some av =>
      if bv ≠ 0 ∧ bv > 1000 ∧ av ≠ 0 ∧ av > 1000 then
        if av - bv < 10 then some (bv, av) else none
      else none
    | _, _ => none
  | _ => none

/-- Size extraction (lines 117-119 of server.py): a present truthy size,
else 0. -/
def extract_size (record : Record) : ℕ :=
  match record.size with
  | some s => if s = 0 then 0 else s
  | none => 0

/-- The price variable of process_record after line 116: the trade price
when present, else the rounded mid of an accepted quote. -/
def observed_price (record : Record) : Option ℚ :=
  match extract_trade_price record, extract_quote record with
  | none, some (b, a) => some (pyRound2 ((b + a) / 2))
  | p, _ => p

/-- The bid/ask side effect of the quote block of process_record
(lines 110-115 of server.py): an accepted pair is rounded and written
into symbols_data immediately, before any spike filtering. -/
def quoteState (st : ServerState) (record : Record) (symbol : Sym) : ServerState :=
  match extract_quote record with
  | some q =>
    let sd := st.symbols_data symbol
    let sd1 := { sd with bid := some (pyRound2 q.1), ask := some (pyRound2 q.2) }
    { st with symbols_data := updateAt st.symbols_data symbol sd1 }
  | none => st

/-- The store part of the commit block of process_record (lines 127-130
of server.py): price, volume, timestamp and last_update written into
symbols_data. -/
def commitBase (st2 : ServerState) (record : Record) (symbol : Sym) (p : ℚ)
    (now : ℕ) : ServerState :=
  let sd2 := st2.symbols_data symbol
  let sd3 :=
    { sd2 with
      price := some p
      volume := extract_size record
      timestamp := some (now * 1000)
      last_update := some now }
  { st2 with symbols_data := updateAt st2.symbols_data symbol sd3 }

/-- The commit block of process_record (lines 127-132 of server.py):
store price, volume, timestamp and last_update, then update_candle. -/
def commitState (st2 : ServerState) (record : Record) (symbol : Sym) (p : ℚ)
    (now : ℕ) : ServerState :=
  update_candle (commitBase st2 record symbol p now) symbol p (extract_size record) now

/-- process_record from server.py: quote handling writes bid/ask into
symbols_data as a side effect of acceptance; the final block commits the
observation (price, volume, timestamp, last_update) and calls
update_candle unless the cross-tick spike filter rejects it. The prev
lookup reads the price stored before this record. -/
def process_record (st : ServerState) (record : Record) (symbol : Sym)
    (now : ℕ) : ServerState :=
  let sd := st.symbols_data symbol
  let st2 := quoteState st record symbol
  match observed_price record with
  | some p =>
    if p ≠ 0 ∧ p > 1000 then
      match sd.price with
      | some prev =>
        if prev ≠ 0 ∧ |p - prev| > 50 then st2 else commitState st2 record symbol p now
      | none => commitState st2 record symbol p now
    else st2
  | none => st2

/-- The instrument-mapping side channel at the top of the record loop in
run_live_feed: a record exposing both stype_in_symbol and instrument_id
writes the mapping, MNQ checked before NQ, overwriting any entry. -/
def metadata_step (st : ServerState) (record : Record) : ServerState :=
  match record.stype_in_symbol, record.instrument_id with
  | some raw, some iid =>
    if strContains raw "MNQ" then
      { st with iid_to_symbol := updateAt st.iid_to_symbol iid (some Sym.MNQ) }
    else if strContains raw "NQ" then
      { st with iid_to_symbol := updateAt st.iid_to_symbol iid (some Sym.NQ) }
    else st
  | _, _ => st

/-- The hint scan of run_live_feed for an unmapped instrument_id: the
first hint containing MNQ, else NQ, fixes and learns the symbol; with no
match the default NQ is used and nothing is learned. -/
def resolve_hints (st : ServerState) (iid : ℕ) : List String → Sym × ServerState
  | [] => (Sym.NQ, st)
  | v :: rest =>
    if strContains v "MNQ" then
      (Sym.MNQ, { st with iid_to_symbol := updateAt st.iid_to_symbol iid (some Sym.MNQ) })
    else if strContains v "NQ" then
      (Sym.NQ, { st with iid_to_symbol := updateAt st.iid_to_symbol iid (some Sym.NQ) })
    else resolve_hints st iid rest

/-- The body of the record loop in run_live_feed: mapping discovery, then
symbol resolution and process_record for data records (records exposing a
price or levels attribute). -/
def feed_step (st : ServerState) (record : Record) (now : ℕ) : ServerState :=
  let st1 := metadata_step st record
  if record.price.isSome || record.levels.isSome then
    let r :=
      match record.instrument_id with
      | some iid =>
        match st1.iid_to_symbol iid with
        | some s => (s, st1)
        | none =>
          resolve_hints st1 iid [record.pretty_symbol.getD "", record.raw_symbol.getD ""]
      | none => (Sym.NQ, st1)
    process_record r.2 record r.1 now
  else st1

/-- The other configured symbol, used by the cross-symbol fallback of the
query endpoints. -/
def otherSym : Sym → Sym
  | Sym.NQ => Sym.MNQ
  | Sym.MNQ => Sym.NQ

/-- Symbol-parameter handling shared by the query endpoints: uppercase,
default unknown symbols to NQ, and pair the state key with the symbol
string reported in the response. -/
def querySym (symbol_param : String) : Sym × String :=
  let symbol := pyUpper symbol_param
  let symbol := if symbol = "NQ" ∨ symbol = "MNQ" then symbol else "NQ"
  (if symbol = "MNQ" then Sym.MNQ else Sym.NQ, symbol)

/-- Python list slice xs[k:] for an arbitrary integer k. -/
def pySliceFrom {α : Type} (xs : List α) (k : ℤ) : List α :=
  if k < 0 then xs.drop (xs.length - (-k).toNat) else xs.drop k.toNat

/-- The snapshot taken under candle_lock in get_candles: completed
candles plus the in-progress candle when present. -/
def snapshot_candles (st : ServerState) (sym : Sym) : List Candle :=
  st.candle_history sym ++
    (match st.current_candle sym with
     | some c => [c]
     | none => [])

/-- The candle list of get_candles after the cross-symbol fallback. -/
def fallback_candles (st : ServerState) (sym : Sym) : List Candle :=
  let candles := snapshot_candles st sym
  if candles.length = 0 then snapshot_candles st (otherSym sym) else candles

/-- get_candles after symbol resolution: limit capped above at 1440, the
slice candles[-limit:] applied when the list is longer than limit. -/
def get_candles_core (st : ServerState) (sym : Sym) (limit_param : ℤ) : List Candle :=
  let limit : ℤ := min limit_param 1440
  let candles := fallback_candles st sym
  if (candles.length : ℤ) > limit then pySliceFrom candles (-limit) else candles

/-- The /api/market/candles endpoint: candle list and the reported
symbol string. -/
def get_candles (st : ServerState) (symbol_param : String) (limit_param : ℤ) :
    List Candle × String :=
  (get_candles_core st (querySym symbol_param).1 limit_param, (querySym symbol_param).2)

/-- get_ticks after symbol resolution: limit capped above at 10000, the
cross-symbol fallback on an empty buffer, slice ticks[-limit:]. -/
def get_ticks_core (st : ServerState) (sym : Sym) (limit_param : ℤ) : List Tick :=
  let limit : ℤ := min limit_param 10000
  let ticks := st.tick_buffer sym
  let ticks := if ticks.length = 0 then st.tick_buffer (otherSym sym) else ticks
  if (ticks.length : ℤ) > limit then pySliceFrom ticks (-limit) else ticks

/-- The /api/market/ticks endpoint: tick list and the reported symbol
string. -/
def get_ticks (st : ServerState) (symbol_param : String) (limit_param : ℤ) :
    List Tick × String :=
  (get_ticks_core st (querySym symbol_param).1 limit_param, (querySym symbol_param).2)

/-! ### Helper lemmas -/

theorem tickAppendState_symbols_data (st : ServerState) (symbol : Sym) (price : ℚ)
    (volume : ℕ) (ts : ℕ) :
    (tickAppendState st symbol price volume ts).symbols_data = st.symbols_data := rfl

theorem update_candle_symbols_data (st : ServerState) (symbol : Sym) (price : ℚ)
    (volume : ℕ) (ts : ℕ) :
    (update_candle st symbol price volume ts).symbols_data = st.symbols_data := by
  unfold update_candle tickAppendState
  dsimp only
  repeat' split
  all_goals rfl

theorem update_candle_iid (st : ServerState) (symbol : Sym) (price : ℚ)
    (volume : ℕ) (ts : ℕ) :
    (update_candle st symbol price volume ts).iid_to_symbol = st.iid_to_symbol := by
  unfold update_candle tickAppendState
  dsimp only
  repeat' split
  all_goals rfl

theorem quoteState_iid (st : ServerState) (record : Record) (symbol : Sym) :
    (quoteState st record symbol).iid_to_symbol = st.iid_to_symbol := by
  unfold quoteState
  split <;> rfl

theorem commitState_iid (st2 : ServerState) (record : Record) (symbol : Sym)
    (p : ℚ) (now : ℕ) :
    (commitState st2 record symbol p now).iid_to_symbol = st2.iid_to_symbol := by
  unfold commitState
  rw [update_candle_iid]
  rfl

theorem process_record_iid (st : ServerState) (record : Record) (symbol : Sym) (now : ℕ) :
    (process_record st record symbol now).iid_to_symbol = st.iid_to_symbol := by
  unfold process_record
  dsimp only
  repeat' split
  all_goals simp [quoteState_iid, commitState_iid]

theorem quoteState_candles (st : ServerState) (record : Record) (symbol : Sym) :
    (quoteState st record symbol).candle_history = st.candle_history
    ∧ (quoteState st record symbol).current_candle = st.current_candle
    ∧ (quoteState st record symbol).tick_buffer = st.tick_buffer := by
  unfold quoteState
  split <;> exact ⟨rfl, rfl, rfl⟩

theorem quoteState_price (st : ServerState) (record : Record) (symbol s2 : Sym) :
    ((quoteState st record symbol).symbols_data s2).price =
      (st.symbols_data s2).price := by
  unfold quoteState
  split
  · by_cases h : s2 = symbol <;> simp [updateAt, h]
  · rfl

theorem quoteState_volume (st : ServerState) (record : Record) (symbol s2 : Sym) :
    ((quoteState st record symbol).symbols_data s2).volume =
      (st.symbols_data s2).volume := by
  unfold quoteState
  split
  · by_cases h : s2 = symbol <;> simp [updateAt, h]
  · rfl

theorem quoteState_timestamp (st : ServerState) (record : Record) (symbol s2 : Sym) :
    ((quoteState st record symbol).symbols_data s2).timestamp =
      (st.symbols_data s2).timestamp := by
  unfold quoteState
  split
  · by_cases h : s2 = symbol <;> simp [updateAt, h]
  · rfl

theorem quoteState_last_update (st : ServerState) (record : Record) (symbol s2 : Sym) :
    ((quoteState st record symbol).symbols_data s2).last_update =
      (st.symbols_data s2).last_update := by
  unfold quoteState
  split
  · by_cases h : s2 = symbol <;> simp [updateAt, h]
  · rfl

theorem quoteState_bid (st : ServerState) (record : Record) (symbol : Sym) :
    ((quoteState st record symbol).symbols_data symbol).bid =
      (match extract_quote record with
       | some q => some (pyRound2 q.1)
       | none => (st.symbols_data symbol).bid) := by
  unfold quoteState
  split <;> simp_all [updateAt]

theorem quoteState_ask (st : ServerState) (record : Record) (symbol : Sym) :
    ((quoteState st record symbol).symbols_data symbol).ask =
      (match extract_quote record with
       | some q => some (pyRound2 q.2)
       | none => (st.symbols_data symbol).ask) := by
  unfold quoteState
  split <;> simp_all [updateAt]

theorem tickAppendState_tick_buffer (st : ServerState) (symbol : Sym) (price : ℚ)
    (volume : ℕ) (ts : ℕ) :
    (tickAppendState st symbol price volume ts).tick_buffer symbol =
      dequeAppend 10000 (st.tick_buffer symbol)
        { time := ts, price := price, volume := if volume = 0 then 1 else volume } := by
  unfold tickAppendState
  simp [updateAt]

theorem update_candle_none (st : ServerState) (symbol : Sym) (price : ℚ) (volume : ℕ)
    (ts : ℕ) (hcc : st.current_candle symbol = none) :
    update_candle st symbol price volume ts =
      tickAppendState
        { st with current_candle := updateAt st.current_candle symbol (some (newCandle (get_candle_time ts) price volume)) }
        symbol price volume ts := by
  unfold update_candle
  rw [hcc]

theorem update_candle_guard (st : ServerState) (symbol : Sym) (price : ℚ) (volume : ℕ)
    (ts : ℕ) (cc : Candle) (hcc : st.current_candle symbol = some cc)
    (ht : cc.time = get_candle_time ts)
    (habs : |price - (cc.high + cc.low) / 2| > 30) :
    update_candle st symbol price volume ts = st := by
  unfold update_candle
  rw [hcc]
  dsimp only
  rw [if_pos ⟨ht, habs⟩]

theorem update_candle_rollover (st : ServerState) (symbol : Sym) (price : ℚ)
    (volume : ℕ) (ts : ℕ) (cc : Candle) (hcc : st.current_candle symbol = some cc)
    (hdiff : cc.time ≠ get_candle_time ts) :
    update_candle st symbol price volume ts =
      tickAppendState
        { st with
          candle_history := updateAt st.candle_history symbol (dequeAppend 1440 (st.candle_history symbol) cc)
          current_candle := updateAt st.current_candle symbol (some (newCandle (get_candle_time ts) price volume)) }
        symbol price volume ts := by
  unfold update_candle
  rw [hcc]
  dsimp only
  rw [if_neg (by simp [hdiff]), if_pos hdiff]

theorem update_candle_same (st : ServerState) (symbol : Sym) (price : ℚ)
    (volume : ℕ) (ts : ℕ) (cc : Candle) (hcc : st.current_candle symbol = some cc)
    (hsame : cc.time = get_candle_time ts)
    (hin : ¬ |price - (cc.high + cc.low) / 2| > 30) :
    update_candle st symbol price volume ts =
      tickAppendState
        { st with current_candle := updateAt st.current_candle symbol (some { cc with high := max cc.high price, low := min cc.low price, close := price, volume := cc.volume + (if volume = 0 then 1 else volume), tick_count := cc.tick_count + 1 }) }
        symbol price volume ts := by
  unfold update_candle
  rw [hcc]
  dsimp only
  rw [if_neg (by simp [hin]), if_neg (by simp [hsame])]

theorem process_record_spike_reject (st : ServerState) (record : Record) (symbol : Sym)
    (now : ℕ) (p prev : ℚ) (hp : observed_price record = some p) (hfloor : p > 1000)
    (hprev : (st.symbols_data symbol).price = some prev) (hprev0 : prev ≠ 0)
    (hspike : |p - prev| > 50) :
    process_record st record symbol now = quoteState st record symbol := by
  unfold process_record
  dsimp only
  rw [hp, hprev]
  dsimp only
  rw [if_pos ⟨ne_of_gt (lt_trans (by norm_num) hfloor), hfloor⟩, if_pos ⟨hprev0, hspike⟩]

theorem process_record_commit_none (st : ServerState) (record : Record) (symbol : Sym)
    (now : ℕ) (p : ℚ) (hp : observed_price record = some p) (hfloor : p > 1000)
    (hprev : (st.symbols_data symbol).price = none) :
    process_record st record symbol now =
      commitState (quoteState st record symbol) record symbol p now := by
  unfold process_record
  dsimp only
  rw [hp, hprev]
  dsimp only
  rw [if_pos ⟨ne_of_gt (lt_trans (by norm_num) hfloor), hfloor⟩]

theorem process_record_commit_small (st : ServerState) (record : Record) (symbol : Sym)
    (now : ℕ) (p prev : ℚ) (hp : observed_price record = some p) (hfloor : p > 1000)
    (hprev : (st.symbols_data symbol).price = some prev)
    (hsmall : ¬(prev ≠ 0 ∧ |p - prev| > 50)) :
    process_record st record symbol now =
      commitState (quoteState st record symbol) record symbol p now := by
  unfold process_record
  dsimp only
  rw [hp, hprev]
  dsimp only
  rw [if_pos ⟨ne_of_gt (lt_trans (by norm_num) hfloor), hfloor⟩, if_neg hsmall]

theorem commitState_symbols_data (st2 : ServerState) (record : Record) (symbol : Sym)
    (p : ℚ) (now : ℕ) :
    (commitState st2 record symbol p now).symbols_data =
      updateAt st2.symbols_data symbol
        { st2.symbols_data symbol with
          price := some p
          volume := extract_size record
          timestamp := some (now * 1000)
          last_update := some now } := by
  unfold commitState
  rw [update_candle_symbols_data]
  unfold commitBase
  dsimp only

theorem dequeAppend_length_le {α : Type} (maxlen : ℕ) (xs : List α) (x : α)
    (hmax : 1 ≤ maxlen) (h : xs.length ≤ maxlen) :
    (dequeAppend maxlen xs x).length ≤ maxlen := by
  unfold dequeAppend
  split
  · simpa using by omega
  · have hx : xs.length = maxlen := by omega
    rcases xs with _ | ⟨y, ys⟩
    · simp at hx; omega
    · simp at hx ⊢; omega

theorem dequeAppend_mem {α : Type} (maxlen : ℕ) (xs : List α) (x y : α)
    (h : y ∈ dequeAppend maxlen xs x) : y ∈ xs ∨ y = x := by
  unfold dequeAppend at h
  split at h
  · simpa using h
  · rcases xs with _ | ⟨z, zs⟩
    · simpa using h
    · simp at h
      rcases h with h | h
      · exact Or.inl (by simp [h])
      · exact Or.inr h

theorem dequeAppend_full_evicts {α : Type} (maxlen : ℕ) (x0 : α) (xs : List α) (x : α)
    (h : (x0 :: xs).length = maxlen) :
    dequeAppend maxlen (x0 :: xs) x = xs ++ [x] := by
  unfold dequeAppend
  rw [if_neg (by omega)]
  rfl

/-! ### Claim C1: spike rejection and state mutation -/

/-- Live data before the C1 scenario: an accepted price of 15000 with
stored bid 14999 and ask 15001. -/
def sdC1 : SymbolData :=
  { initSymbolData with price := some 15000, bid := some 14999, ask := some 15001 }

/-- State before the C1 scenario. -/
def stC1 : ServerState :=
  { initState with symbols_data := updateAt initState.symbols_data Sym.NQ sdC1 }

/-- C1 record: no trade price, an accepted quote bid 16000 / ask 16004
whose mid 16002 differs from the previous price by 1002. -/
def recC1 : Record :=
  { price := none, levels := some [{ bid_px := 16000000000000, ask_px := 16004000000000 }],
    size := none, instrument_id := none, stype_in_symbol := none,
    pretty_symbol := none, raw_symbol := none }

/-- C1 counterexample: a record whose extracted price (the quote mid
16002) passes the plausibility floor and is spike-rejected against the
previous price 15000 nevertheless mutates the LiveState bid and ask
fields, because the quote write happens before the spike check. The
price field stays 15000, showing the record was indeed rejected. -/
theorem spike_reject_mutates_bid_ask :
    observed_price recC1 = some 16002
    ∧ |(16002 : ℚ) - 15000| > 50
    ∧ ((process_record stC1 recC1 Sym.NQ 0).symbols_data Sym.NQ).price = some 15000
    ∧ ((process_record stC1 recC1 Sym.NQ 0).symbols_data Sym.NQ).bid = some 16000
    ∧ (stC1.symbols_data Sym.NQ).bid = some 14999 := by
  refine ⟨?_, by norm_num, ?_, ?_, ?_⟩ <;>
    norm_num [process_record, quoteState, commitState, observed_price, extract_trade_price,
      extract_quote, extract_size, pyRound2, roundHalfEven, updateAt,
      stC1, recC1, sdC1, initState, initSymbolData]

/-- C1 (amended): a record whose extracted price passes the plausibility
floor but differs from the previously accepted price by more than 50 is
rejected: the LiveState price, volume, timestamp and last_update fields,
the current candle, CandleHistory and TickBuffer are all unchanged;
however, when the record carries an accepted bid/ask pair, the LiveState
bid and ask fields are overwritten with the rounded quote before the
spike check runs (so they do change). -/
theorem spike_reject_state_effects (st : ServerState) (record : Record) (sym : Sym)
    (now : ℕ) (p prev : ℚ)
    (hp : observed_price record = some p) (hfloor : p > 1000)
    (hprev : (st.symbols_data sym).price = some prev) (hprevfloor : prev > 1000)
    (hspike : |p - prev| > 50) :
    ((process_record st record sym now).symbols_data sym).price = some prev
    ∧ ((process_record st record sym now).symbols_data sym).volume = (st.symbols_data sym).volume
    ∧ ((process_record st record sym now).symbols_data sym).timestamp = (st.symbols_data sym).timestamp
    ∧ ((process_record st record sym now).symbols_data sym).last_update = (st.symbols_data sym).last_update
    ∧ (process_record st record sym now).current_candle = st.current_candle
    ∧ (process_record st record sym now).candle_history = st.candle_history
    ∧ (process_record st record sym now).tick_buffer = st.tick_buffer
    ∧ ((process_record st record sym now).symbols_data sym).bid =
        (match extract_quote record with
         | some q => some (pyRound2 q.1)
         | none => (st.symbols_data sym).bid)
    ∧ ((process_record st record sym now).symbols_data sym).ask =
        (match extract_quote record with
         | some q => some (pyRound2 q.2)
         | none => (st.symbols_data sym).ask) := by
  have hprev0 : prev ≠ 0 := ne_of_gt (lt_trans (by norm_num) hprevfloor)
  have hr := process_record_spike_reject st record sym now p prev hp hfloor hprev hprev0 hspike
  rw [hr]
  exact ⟨(quoteState_price st record sym sym).trans hprev,
    quoteState_volume st record sym sym,
    quoteState_timestamp st record sym sym,
    quoteState_last_update st record sym sym,
    (quoteState_candles st record sym).2.1,
    (quoteState_candles st record sym).1,
    (quoteState_candles st record sym).2.2,
    quoteState_bid st record sym,
    quoteState_ask st record sym⟩

/-- C1 witness: the amended theorem applied to the concrete C1 scenario. -/
theorem spike_reject_state_effects_witness :
    ((process_record stC1 recC1 Sym.NQ 5).symbols_data Sym.NQ).price = some 15000
    ∧ (process_record stC1 recC1 Sym.NQ 5).tick_buffer = stC1.tick_buffer :=
  have h := spike_reject_state_effects stC1 recC1 Sym.NQ 5 16002 15000
    (by norm_num [observed_price, extract_trade_price, extract_quote, recC1,
      pyRound2, roundHalfEven])
    (by norm_num)
    (by simp [stC1, updateAt, sdC1])
    (by norm_num)
    (by norm_num)
  ⟨h.1, h.2.2.2.2.2.2.1⟩

/-! ### Claim C2: tick append and the in-candle spike guard -/

/-- The in-candle spike guard condition of update_candle: the in-progress
candle has the same bucket and the price deviates from its mid by more
than 30. -/
def candleSpikeGuard (st : ServerState) (sym : Sym) (price : ℚ) (ts : ℕ) : Prop :=
  ∃ cc, st.current_candle sym = some cc
    ∧ cc.time = get_candle_time ts
    ∧ |price - (cc.high + cc.low) / 2| > 30

/-- In-progress candle for the C2 scenario: bucket 0 with all prices at
15000. -/
def ccC2 : Candle :=
  { time := 0, open_ := 15000, high := 15000, low := 15000, close := 15000,
    volume := 1, tick_count := 1 }

/-- State before the C2 scenario: previous price 15000 and the candle
ccC2 in progress, empty tick buffer. -/
def stC2 : ServerState :=
  { initState with
    symbols_data := updateAt initState.symbols_data Sym.NQ { initSymbolData with price := some 15000 }
    current_candle := updateAt initState.current_candle Sym.NQ (some ccC2) }

/-- C2 record: trade price 15040, within 50 of the previous price (so
RecordFilter accepts) but 40 away from the candle mid 15000. -/
def recC2 : Record :=
  { price := some 15040000000000, levels := none, size := some 2, instrument_id := none,
    stype_in_symbol := none, pretty_symbol := none, raw_symbol := none }

/-- C2 counterexample: the observation is accepted by RecordFilter (the
LiveState price becomes 15040) but the in-candle spike guard fires, and
no tick is appended: the tick buffer stays empty. -/
theorem candle_spike_skips_tick_append :
    ((process_record stC2 recC2 Sym.NQ 30).symbols_data Sym.NQ).price = some 15040
    ∧ (process_record stC2 recC2 Sym.NQ 30).tick_buffer Sym.NQ = []
    ∧ stC2.tick_buffer Sym.NQ = [] := by
  refine ⟨?_, ?_, rfl⟩ <;>
    norm_num [process_record, quoteState, commitState, commitBase, update_candle,
      tickAppendState, observed_price, extract_trade_price, extract_quote, extract_size,
      get_candle_time, pyRound2, roundHalfEven, updateAt, dequeAppend,
      stC2, recC2, ccC2, initState, initSymbolData]

/-- C2 (amended): after RecordFilter acceptance a tick is appended to the
symbol's TickBuffer whenever the in-candle spike guard does not fire; when
the guard fires (same bucket and price more than 30 from the candle mid)
the whole update, tick append included, is skipped and the state is
returned unchanged. -/
theorem tick_append_unless_candle_spike (st : ServerState) (sym : Sym) (price : ℚ)
    (volume : ℕ) (ts : ℕ) :
    (¬ candleSpikeGuard st sym price ts →
      (update_candle st sym price volume ts).tick_buffer sym =
        dequeAppend 10000 (st.tick_buffer sym)
          { time := ts, price := price, volume := if volume = 0 then 1 else volume })
    ∧ (candleSpikeGuard st sym price ts → update_candle st sym price volume ts = st) := by
  constructor
  · intro hng
    rcases hc : st.current_candle sym with _ | cc
    · rw [update_candle_none st sym price volume ts hc, tickAppendState_tick_buffer]
    · by_cases hsame : cc.time = get_candle_time ts
      · have hin : ¬ |price - (cc.high + cc.low) / 2| > 30 :=
          fun habs => hng ⟨cc, hc, hsame, habs⟩
        rw [update_candle_same st sym price volume ts cc hc hsame hin,
          tickAppendState_tick_buffer]
      · rw [update_candle_rollover st sym price volume ts cc hc hsame,
          tickAppendState_tick_buffer]
  · rintro ⟨cc, hc, hsame, habs⟩
    exact update_candle_guard st sym price volume ts cc hc hsame habs

/-- C2 witness: the amended theorem applied with no guard firing appends
the tick. -/
theorem tick_append_unless_candle_spike_witness :
    (update_candle initState Sym.NQ 15000 1 0).tick_buffer Sym.NQ =
      dequeAppend 10000 (initState.tick_buffer Sym.NQ)
        { time := 0, price := 15000, volume := 1 } :=
  (tick_append_unless_candle_spike initState Sym.NQ 15000 1 0).1
    (by rintro ⟨cc, hcc, h1, h2⟩; simp [initState] at hcc)

/-! ### Claim C3: stickiness of the instrument-id mapping -/

theorem resolve_hints_preserves (st : ServerState) (j iid : ℕ) (vals : List String)
    (hne : iid ≠ j) :
    ((resolve_hints st j vals).2).iid_to_symbol iid = st.iid_to_symbol iid := by
  induction vals with
  | nil => rfl
  | cons v rest ih =>
    unfold resolve_hints
    split
    · simp [updateAt, hne]
    · split
      · simp [updateAt, hne]
      · exact ih

/-- A metadata record mapping instrument 42 via the hint NQZ5. -/
def recMapNQ : Record :=
  { price := none, levels := none, size := none, instrument_id := some 42,
    stype_in_symbol := some "NQZ5", pretty_symbol := none, raw_symbol := none }

/-- A later metadata record for the same instrument carrying MNQZ5. -/
def recMapMNQ : Record := { recMapNQ with stype_in_symbol := some "MNQZ5" }

/-- C3 counterexample: a symbol-mapping record first maps instrument 42
to NQ; a later symbol-mapping record whose text contains MNQ overwrites
that entry, reassigning 42 to MNQ within the same session. -/
theorem metadata_record_reassigns_mapping :
    (feed_step initState recMapNQ 0).iid_to_symbol 42 = some Sym.NQ
    ∧ (feed_step (feed_step initState recMapNQ 0) recMapMNQ 0).iid_to_symbol 42 = some Sym.MNQ := by
  decide

/-- C3 (amended): the data-record hint path never reassigns a learned
mapping: processing any record that does not carry the stype_in_symbol
metadata field leaves every existing instrument-to-symbol entry intact
(a mapped id resolves to its stored symbol and the hint scan is skipped);
only a symbol-mapping/metadata record can overwrite an entry. -/
theorem mapping_sticky_without_metadata (st : ServerState) (record : Record) (now : ℕ)
    (iid : ℕ) (s : Sym)
    (hmeta : record.stype_in_symbol = none)
    (hmap : st.iid_to_symbol iid = some s) :
    (feed_step st record now).iid_to_symbol iid = some s := by
  unfold feed_step metadata_step
  rw [hmeta]
  dsimp only
  split
  · rcases hi : record.instrument_id with _ | j
    · dsimp only
      rw [process_record_iid]
      exact hmap
    · dsimp only
      rcases hj : st.iid_to_symbol j with _ | s2
      · dsimp only
        have hne : iid ≠ j := by
          intro h
          rw [h, hj] at hmap
          cases hmap
        rw [process_record_iid, resolve_hints_preserves st j iid _ hne]
        exact hmap
      · dsimp only
        rw [process_record_iid]
        exact hmap
  · exact hmap

/-- State with instrument 42 already mapped to NQ. -/
def stMapped : ServerState :=
  { initState with iid_to_symbol := updateAt initState.iid_to_symbol 42 (some Sym.NQ) }

/-- A data record for instrument 42 whose hint field contains MNQZ5. -/
def recHintMNQ : Record :=
  { price := some 15001000000000, levels := none, size := none, instrument_id := some 42,
    stype_in_symbol := none, pretty_symbol := some "MNQZ5", raw_symbol := none }

/-- C3 witness: the amended theorem applied to a mapped id and a data
record carrying a contradictory hint. -/
theorem mapping_sticky_without_metadata_witness :
    (feed_step stMapped recHintMNQ 0).iid_to_symbol 42 = some Sym.NQ :=
  mapping_sticky_without_metadata stMapped recHintMNQ 0 42 Sym.NQ rfl (by decide)

/-! ### Claim C4: quote acceptance and the mid price -/

theorem scaled_gt_pos (n : ℤ) (h : (n : ℚ) / 1000000000 > 1000) : n ≠ 0 ∧ n > 0 := by
  rw [gt_iff_lt, lt_div_iff₀ (by norm_num : (0 : ℚ) < 1000000000)] at h
  have hn : (1000000000000 : ℤ) < n := by exact_mod_cast h
  exact ⟨by omega, by omega⟩

theorem extract_quote_eq (record : Record) (rb ra : ℤ) (rest : List Level)
    (hlev : record.levels = some ({ bid_px := rb, ask_px := ra } :: rest)) :
    extract_quote record =
      (if (rb : ℚ) / 1000000000 > 1000 ∧ (ra : ℚ) / 1000000000 > 1000
          ∧ (ra : ℚ) / 1000000000 - (rb : ℚ) / 1000000000 < 10
       then some ((rb : ℚ) / 1000000000, (ra : ℚ) / 1000000000)
       else none) := by
  unfold extract_quote
  rw [hlev]
  dsimp only
  by_cases h1 : rb ≠ 0 ∧ rb > 0
  · by_cases h2 : ra ≠ 0 ∧ ra > 0
    · rw [if_pos h1, if_pos h2]
      dsimp only
      by_cases h3 : (rb : ℚ) / 1000000000 > 1000 ∧ (ra : ℚ) / 1000000000 > 1000
      · rw [if_pos ⟨ne_of_gt (lt_trans (by norm_num) h3.1), h3.1,
          ne_of_gt (lt_trans (by norm_num) h3.2), h3.2⟩]
        by_cases h4 : (ra : ℚ) / 1000000000 - (rb : ℚ) / 1000000000 < 10
        · rw [if_pos h4, if_pos ⟨h3.1, h3.2, h4⟩]
        · rw [if_neg h4, if_neg (fun hc => h4 hc.2.2)]
      · rw [if_neg (by tauto), if_neg (by tauto)]
    · rw [if_pos h1, if_neg h2]
      dsimp only
      rw [if_neg (fun hc => h2 (scaled_gt_pos ra hc.2.1))]
  · rw [if_neg h1]
    dsimp only
    rw [if_neg (fun hc => h1 (scaled_gt_pos rb hc.1))]

theorem commitState_bid (st2 : ServerState) (record : Record) (symbol : Sym)
    (p : ℚ) (now : ℕ) :
    ((commitState st2 record symbol p now).symbols_data symbol).bid =
      (st2.symbols_data symbol).bid := by
  rw [commitState_symbols_data]
  simp [updateAt]

theorem commitState_ask (st2 : ServerState) (record : Record) (symbol : Sym)
    (p : ℚ) (now : ℕ) :
    ((commitState st2 record symbol p now).symbols_data symbol).ask =
      (st2.symbols_data symbol).ask := by
  rw [commitState_symbols_data]
  simp [updateAt]

/-- C4 record: no trade price; first level bid 15000.000, ask 15000.025,
an accepted pair whose exact mid 15000.0125 does not survive rounding. -/
def recC4 : Record :=
  { price := none, levels := some [{ bid_px := 15000000000000, ask_px := 15000025000000 }],
    size := none, instrument_id := none, stype_in_symbol := none,
    pretty_symbol := none, raw_symbol := none }

/-- C4 counterexample: for the accepted pair bid 15000, ask 15000.025 the
observation's price is 15000.01 (the mid rounded to 2 decimals), not the
exact mid 15000.0125 claimed. -/
theorem mid_price_rounded_counterexample :
    observed_price recC4 = some ((1500001 : ℚ) / 100)
    ∧ extract_quote recC4 = some (15000, (15000025 : ℚ) / 1000)
    ∧ (1500001 : ℚ) / 100 ≠ (15000 + (15000025 : ℚ) / 1000) / 2 := by
  refine ⟨?_, ?_, by norm_num⟩ <;>
    norm_num [observed_price, extract_trade_price, extract_quote, recC4,
      pyRound2, roundHalfEven]

/-- C4 (amended): a best-bid/best-ask pair is accepted if and only if
both scaled-down values exceed 1000 and ask - bid is less than 10; a pair
failing this is wholly discarded (the stored bid and ask are untouched on
every path); and when the pair is accepted and the record carries no
accepted trade price, the observation's price is the mid (b + a) / 2
rounded to 2 decimal places. -/
theorem quote_acceptance_and_mid_price (record : Record) (rb ra : ℤ) (rest : List Level)
    (hlev : record.levels = some ({ bid_px := rb, ask_px := ra } :: rest)) :
    (extract_quote record = some ((rb : ℚ) / 1000000000, (ra : ℚ) / 1000000000)
      ↔ ((rb : ℚ) / 1000000000 > 1000 ∧ (ra : ℚ) / 1000000000 > 1000
          ∧ (ra : ℚ) / 1000000000 - (rb : ℚ) / 1000000000 < 10))
    ∧ (extract_quote record = none
        ∨ extract_quote record = some ((rb : ℚ) / 1000000000, (ra : ℚ) / 1000000000))
    ∧ (∀ st sym now, extract_quote record = none →
        ((process_record st record sym now).symbols_data sym).bid = (st.symbols_data sym).bid
        ∧ ((process_record st record sym now).symbols_data sym).ask = (st.symbols_data sym).ask)
    ∧ (extract_trade_price record = none → ∀ b a, extract_quote record = some (b, a) →
        observed_price record = some (pyRound2 ((b + a) / 2))) := by
  have he := extract_quote_eq record rb ra rest hlev
  refine ⟨?_, ?_, ?_, ?_⟩
  · rw [he]
    constructor
    · intro h
      by_cases hc : (rb : ℚ) / 1000000000 > 1000 ∧ (ra : ℚ) / 1000000000 > 1000
          ∧ (ra : ℚ) / 1000000000 - (rb : ℚ) / 1000000000 < 10
      · exact hc
      · rw [if_neg hc] at h
        cases h
    · intro hc
      rw [if_pos hc]
  · rw [he]
    split
    · exact Or.inr rfl
    · exact Or.inl rfl
  · intro st sym now hq
    have hqs : quoteState st record sym = st := by
      unfold quoteState
      rw [hq]
    unfold process_record
    dsimp only
    rw [hqs]
    constructor <;>
      · repeat' split
        all_goals simp [commitState_bid, commitState_ask]
  · intro ht b a hq
    unfold observed_price
    rw [ht, hq]

/-- C4 witness: the acceptance criterion applied to the concrete record
recC4, whose pair satisfies the three conditions. -/
theorem quote_acceptance_and_mid_price_witness :
    extract_quote recC4 =
      some (((15000000000000 : ℤ) : ℚ) / 1000000000, ((15000025000000 : ℤ) : ℚ) / 1000000000) :=
  (quote_acceptance_and_mid_price recC4 15000000000000 15000025000000 [] rfl).1.mpr
    (by norm_num)

/-! ### Claim C5: the spike threshold is strict -/

theorem commitState_price (st2 : ServerState) (record : Record) (symbol : Sym)
    (p : ℚ) (now : ℕ) :
    ((commitState st2 record symbol p now).symbols_data symbol).price = some p := by
  rw [commitState_symbols_data]
  simp [updateAt]

/-- C5: with a previously accepted price present, a plausible new price
is rejected when it differs from the previous price by more than 50 (the
stored price and all candle and tick state stay unchanged), and accepted
when it differs by exactly 50 (the stored price becomes the new price):
the threshold comparison is strict. -/
theorem spike_threshold_strict_boundary (st : ServerState) (record : Record) (sym : Sym)
    (now : ℕ) (p prev : ℚ)
    (hp : observed_price record = some p) (hfloor : p > 1000)
    (hprev : (st.symbols_data sym).price = some prev) (hprevfloor : prev > 1000) :
    (|p - prev| > 50 →
      ((process_record st record sym now).symbols_data sym).price = some prev
      ∧ (process_record st record sym now).current_candle = st.current_candle
      ∧ (process_record st record sym now).candle_history = st.candle_history
      ∧ (process_record st record sym now).tick_buffer = st.tick_buffer)
    ∧ (|p - prev| = 50 →
      ((process_record st record sym now).symbols_data sym).price = some p) := by
  constructor
  · intro hspike
    have hprev0 : prev ≠ 0 := ne_of_gt (lt_trans (by norm_num) hprevfloor)
    rw [process_record_spike_reject st record sym now p prev hp hfloor hprev hprev0 hspike]
    exact ⟨(quoteState_price st record sym sym).trans hprev,
      (quoteState_candles st record sym).2.1,
      (quoteState_candles st record sym).1,
      (quoteState_candles st record sym).2.2⟩
  · intro heq
    have hsmall : ¬(prev ≠ 0 ∧ |p - prev| > 50) := by
      rintro ⟨h0, habs⟩
      rw [heq] at habs
      exact absurd habs (by norm_num)
    rw [process_record_commit_small st record sym now p prev hp hfloor hprev hsmall]
    exact commitState_price (quoteState st record sym) record sym p now

/-- State before the C5 scenario: accepted price 15000 for NQ. -/
def stC5 : ServerState :=
  { initState with symbols_data := updateAt initState.symbols_data Sym.NQ { initSymbolData with price := some 15000 } }

/-- C5 record: trade price 15050, exactly 50 above the previous price. -/
def recC5 : Record :=
  { price := some 15050000000000, levels := none, size := none, instrument_id := none,
    stype_in_symbol := none, pretty_symbol := none, raw_symbol := none }

/-- C5 witness: a price differing by exactly 50 is accepted. -/
theorem spike_threshold_strict_boundary_witness :
    ((process_record stC5 recC5 Sym.NQ 3).symbols_data Sym.NQ).price = some 15050 :=
  (spike_threshold_strict_boundary stC5 recC5 Sym.NQ 3 15050 15000
    (by norm_num [observed_price, extract_trade_price, extract_quote, recC5,
      pyRound2, roundHalfEven])
    (by norm_num)
    (by simp [stC5, updateAt])
    (by norm_num)).2 (by norm_num)

/-! ### Claim C6: the OHLC range invariant -/

/-- The candle range invariant of the claim: the high bounds open and
close from above, the low bounds them from below. -/
def candleWF (c : Candle) : Prop :=
  max c.open_ c.close ≤ c.high ∧ c.low ≤ min c.open_ c.close

/-- Every in-progress candle and every completed candle in history
satisfies the range invariant. -/
def stateWF (st : ServerState) : Prop :=
  ∀ sym : Sym,
    (∀ cc, st.current_candle sym = some cc → candleWF cc)
    ∧ (∀ c ∈ st.candle_history sym, candleWF c)

theorem newCandle_WF (t : ℕ) (p : ℚ) (v : ℕ) : candleWF (newCandle t p v) := by
  simp [candleWF, newCandle]

theorem tickAppendState_current (st : ServerState) (sym : Sym) (p : ℚ) (v : ℕ) (ts : ℕ) :
    (tickAppendState st sym p v ts).current_candle = st.current_candle := rfl

theorem tickAppendState_history (st : ServerState) (sym : Sym) (p : ℚ) (v : ℕ) (ts : ℕ) :
    (tickAppendState st sym p v ts).candle_history = st.candle_history := rfl

theorem update_candle_stateWF (st : ServerState) (sym : Sym) (p : ℚ) (v : ℕ) (ts : ℕ)
    (h : stateWF st) : stateWF (update_candle st sym p v ts) := by
  rcases hc : st.current_candle sym with _ | cc
  · rw [update_candle_none st sym p v ts hc]
    intro s2
    refine ⟨?_, fun c hcel => (h s2).2 c (by rwa [tickAppendState_history] at hcel)⟩
    intro cc2 hcc2
    rw [tickAppendState_current] at hcc2
    dsimp only at hcc2
    by_cases hs : s2 = sym
    · simp only [updateAt, hs, if_pos] at hcc2
      rw [← Option.some_inj.mp hcc2]
      exact newCandle_WF _ _ _
    · simp only [updateAt, if_neg hs] at hcc2
      exact (h s2).1 cc2 hcc2
  · by_cases hguard : cc.time = get_candle_time ts ∧ |p - (cc.high + cc.low) / 2| > 30
    · rw [update_candle_guard st sym p v ts cc hc hguard.1 hguard.2]
      exact h
    · by_cases hsame : cc.time = get_candle_time ts
      · have hin : ¬ |p - (cc.high + cc.low) / 2| > 30 := fun habs => hguard ⟨hsame, habs⟩
        rw [update_candle_same st sym p v ts cc hc hsame hin]
        intro s2
        refine ⟨?_, fun c hcel => (h s2).2 c (by rwa [tickAppendState_history] at hcel)⟩
        intro cc2 hcc2
        rw [tickAppendState_current] at hcc2
        dsimp only at hcc2
        by_cases hs : s2 = sym
        · simp only [updateAt, hs, if_pos] at hcc2
          obtain ⟨h1, h2⟩ := (h sym).1 cc hc
          rw [← Option.some_inj.mp hcc2]
          constructor
          · have hoh : cc.open_ ≤ cc.high := le_trans (le_max_left _ _) h1
            exact max_le (le_trans hoh (le_max_left _ _)) (le_max_right _ _)
          · have hlo : cc.low ≤ cc.open_ := le_trans h2 (min_le_left _ _)
            exact le_min (le_trans (min_le_left _ _) hlo) (min_le_right _ _)
        · simp only [updateAt, if_neg hs] at hcc2
          exact (h s2).1 cc2 hcc2
      · rw [update_candle_rollover st sym p v ts cc hc hsame]
        intro s2
        constructor
        · intro cc2 hcc2
          rw [tickAppendState_current] at hcc2
          dsimp only at hcc2
          by_cases hs : s2 = sym
          · simp only [updateAt, hs, if_pos] at hcc2
            rw [← Option.some_inj.mp hcc2]
            exact newCandle_WF _ _ _
          · simp only [updateAt, if_neg hs] at hcc2
            exact (h s2).1 cc2 hcc2
        · intro c hcel
          rw [tickAppendState_history] at hcel
          dsimp only at hcel
          by_cases hs : s2 = sym
          · simp only [updateAt, hs, if_pos] at hcel
            rcases dequeAppend_mem 1440 (st.candle_history sym) cc c hcel with hmem | hval
            · exact (h sym).2 c hmem
            · rw [hval]
              exact (h sym).1 cc hc
          · simp only [updateAt, if_neg hs] at hcel
            exact (h s2).2 c hcel

/-- One candle-aggregator step for an observation
(symbol, price, volume, event_time_seconds). -/
def apply_obs (st : ServerState) (ob : Sym × ℚ × ℕ × ℕ) : ServerState :=
  update_candle st ob.1 ob.2.1 ob.2.2.1 ob.2.2.2

/-- C6: over every sequence of accepted observations applied to the
candle aggregator from a state satisfying the range invariant, every
in-progress candle keeps high at least max(open, close) and low at most
min(open, close), and so does every completed candle in CandleHistory. -/
theorem candle_ohlc_invariant (l : List (Sym × ℚ × ℕ × ℕ)) (st : ServerState)
    (h : stateWF st) : stateWF (l.foldl apply_obs st) := by
  induction l generalizing st with
  | nil => exact h
  | cons ob rest ih =>
    exact ih _ (update_candle_stateWF st ob.1 ob.2.1 ob.2.2.1 ob.2.2.2 h)

/-- C6 witness: the invariant after one observation from the initial
state. -/
theorem candle_ohlc_invariant_witness :
    stateWF ([(Sym.NQ, (15000 : ℚ), 1, 0)].foldl apply_obs initState) :=
  candle_ohlc_invariant [(Sym.NQ, (15000 : ℚ), 1, 0)] initState
    (fun s => ⟨fun cc h => by simp [initState] at h, fun c h => by simp [initState] at h⟩)

/-! ### Claim C7: ring capacities and eviction order -/

/-- Every candle history holds at most 1440 candles and every tick buffer
at most 10000 ticks. -/
def stateBounded (st : ServerState) : Prop :=
  ∀ sym : Sym,
    (st.candle_history sym).length ≤ 1440 ∧ (st.tick_buffer sym).length ≤ 10000

theorem tickAppendState_stateBounded (st1 : ServerState) (sym : Sym) (p : ℚ) (v : ℕ)
    (ts : ℕ) (h1 : stateBounded st1) : stateBounded (tickAppendState st1 sym p v ts) := by
  intro s2
  refine ⟨(h1 s2).1, ?_⟩
  unfold tickAppendState
  dsimp only
  by_cases hs : s2 = sym
  · simp only [updateAt, hs, if_pos]
    exact dequeAppend_length_le 10000 _ _ (by norm_num) ((h1 sym).2)
  · simp only [updateAt, if_neg hs]
    exact (h1 s2).2

theorem update_candle_stateBounded (st : ServerState) (sym : Sym) (p : ℚ) (v : ℕ)
    (ts : ℕ) (h : stateBounded st) : stateBounded (update_candle st sym p v ts) := by
  rcases hc : st.current_candle sym with _ | cc
  · rw [update_candle_none st sym p v ts hc]
    exact tickAppendState_stateBounded _ sym p v ts (fun s2 => ⟨(h s2).1, (h s2).2⟩)
  · by_cases hguard : cc.time = get_candle_time ts ∧ |p - (cc.high + cc.low) / 2| > 30
    · rw [update_candle_guard st sym p v ts cc hc hguard.1 hguard.2]
      exact h
    · by_cases hsame : cc.time = get_candle_time ts
      · have hin : ¬ |p - (cc.high + cc.low) / 2| > 30 := fun habs => hguard ⟨hsame, habs⟩
        rw [update_candle_same st sym p v ts cc hc hsame hin]
        exact tickAppendState_stateBounded _ sym p v ts (fun s2 => ⟨(h s2).1, (h s2).2⟩)
      · rw [update_candle_rollover st sym p v ts cc hc hsame]
        apply tickAppendState_stateBounded
        intro s2
        refine ⟨?_, (h s2).2⟩
        dsimp only
        by_cases hs : s2 = sym
        · simp only [updateAt, hs, if_pos]
          exact dequeAppend_length_le 1440 _ _ (by norm_num) ((h sym).1)
        · simp only [updateAt, if_neg hs]
          exact (h s2).1

/-- C7: over every sequence of observations applied to the aggregator
from a bounded state, CandleHistory stays at most 1440 candles and
TickBuffer at most 10000 ticks per symbol; and an append to a full ring
evicts exactly the oldest entry, preserving the order of the rest. -/
theorem ring_capacity_and_eviction :
    (∀ (l : List (Sym × ℚ × ℕ × ℕ)) (st : ServerState), stateBounded st →
        stateBounded (l.foldl apply_obs st))
    ∧ (∀ (c0 : Candle) (cs : List Candle) (c : Candle), (c0 :: cs).length = 1440 →
        dequeAppend 1440 (c0 :: cs) c = cs ++ [c])
    ∧ (∀ (t0 : Tick) (tl : List Tick) (t : Tick), (t0 :: tl).length = 10000 →
        dequeAppend 10000 (t0 :: tl) t = tl ++ [t]) := by
  refine ⟨?_, ?_, ?_⟩
  · intro l
    induction l with
    | nil => exact fun st h => h
    | cons ob rest ih =>
      intro st h
      exact ih _ (update_candle_stateBounded st ob.1 ob.2.1 ob.2.2.1 ob.2.2.2 h)
  · exact fun c0 cs c h => dequeAppend_full_evicts 1440 c0 cs c h
  · exact fun t0 tl t h => dequeAppend_full_evicts 10000 t0 tl t h

/-- A throwaway candle for the C7 witness. -/
def cW : Candle :=
  { time := 0, open_ := 1, high := 1, low := 1, close := 1, volume := 1, tick_count := 1 }

/-- A throwaway tick for the C7 witness. -/
def tW : Tick := { time := 0, price := 1, volume := 1 }

/-- C7 witness: the capacity invariant on a concrete fold, and both
eviction equations on concrete full rings. -/
theorem ring_capacity_and_eviction_witness :
    stateBounded (([] : List (Sym × ℚ × ℕ × ℕ)).foldl apply_obs initState)
    ∧ dequeAppend 1440 (cW :: List.replicate 1439 cW) cW = List.replicate 1439 cW ++ [cW]
    ∧ dequeAppend 10000 (tW :: List.replicate 9999 tW) tW = List.replicate 9999 tW ++ [tW] :=
  ⟨ring_capacity_and_eviction.1 [] initState
      (fun s => ⟨by simp [initState], by simp [initState]⟩),
   ring_capacity_and_eviction.2.1 cW (List.replicate 1439 cW) cW
      (by rw [List.length_cons, List.length_replicate]),
   ring_capacity_and_eviction.2.2 tW (List.replicate 9999 tW) tW
      (by rw [List.length_cons, List.length_replicate])⟩

/-! ### Claim C8: get_candles limit handling -/

theorem querySym_NQ : querySym "NQ" = (Sym.NQ, "NQ") := by decide

/-- A history candle at bucket n for the C8 scenario. -/
def cn (n : ℕ) : Candle :=
  { time := n, open_ := 15000, high := 15000, low := 15000, close := 15000,
    volume := 1, tick_count := 1 }

/-- State with three completed NQ candles and no in-progress candle. -/
def stC8 : ServerState :=
  { initState with candle_history := updateAt initState.candle_history Sym.NQ [cn 0, cn 60, cn 120] }

/-- C8 counterexample: limit is not clamped below. With limit -1 the code
returns the last two of three candles (Python slice semantics drop the
first one), not the empty list a clamp to 0 with most-recent truncation
would produce; and with limit 0 the code returns the whole list rather
than zero entries. -/
theorem negative_limit_not_clamped :
    (get_candles stC8 "NQ" (-1)).1 = [cn 60, cn 120]
    ∧ (get_candles stC8 "NQ" (-1)).1 ≠ []
    ∧ (get_candles stC8 "NQ" 0).1 = [cn 0, cn 60, cn 120] := by
  have h1 : (get_candles stC8 "NQ" (-1)).1 = [cn 60, cn 120] := by
    norm_num [get_candles, get_candles_core, querySym_NQ, fallback_candles,
      snapshot_candles, pySliceFrom, min_def, stC8, initState, updateAt]
  have h0 : (get_candles stC8 "NQ" 0).1 = [cn 0, cn 60, cn 120] := by
    norm_num [get_candles, get_candles_core, querySym_NQ, fallback_candles,
      snapshot_candles, pySliceFrom, min_def, stC8, initState, updateAt]
  refine ⟨h1, ?_, h0⟩
  rw [h1]
  simp

/-- C8 (amended): get_candles serves the candle list CandleHistory ++
the in-progress candle when present, most recent last, with the
cross-symbol fallback when empty; the limit is clamped above at 1440 but
not below: a positive limit keeps the most recent min(limit, 1440)
entries, limit 0 returns the whole list, and a negative limit drops the
first |limit| entries instead of behaving as 0. -/
theorem get_candles_limit_behavior (st : ServerState) (sp : String) (l : ℤ) :
    (0 < l → (get_candles st sp l).1 =
        (fallback_candles st (querySym sp).1).drop
          ((fallback_candles st (querySym sp).1).length - (min l 1440).toNat))
    ∧ (l = 0 → (get_candles st sp l).1 = fallback_candles st (querySym sp).1)
    ∧ (l < 0 → (get_candles st sp l).1 =
        (fallback_candles st (querySym sp).1).drop (-l).toNat) := by
  have hcore : (get_candles st sp l).1 =
      (if ((fallback_candles st (querySym sp).1).length : ℤ) > min l 1440
       then pySliceFrom (fallback_candles st (querySym sp).1) (-(min l 1440))
       else fallback_candles st (querySym sp).1) := rfl
  set L := fallback_candles st (querySym sp).1 with hL
  refine ⟨?_, ?_, ?_⟩
  · intro hl
    rw [hcore]
    by_cases hlen : (L.length : ℤ) > min l 1440
    · rw [if_pos hlen]
      unfold pySliceFrom
      rw [if_pos (by omega : -(min l 1440) < 0), neg_neg]
    · rw [if_neg hlen]
      rw [Nat.sub_eq_zero_of_le (by omega : L.length ≤ (min l 1440).toNat), List.drop_zero]
  · intro hl0
    subst hl0
    rw [hcore]
    by_cases hlen : (L.length : ℤ) > min 0 1440
    · rw [if_pos hlen]
      unfold pySliceFrom
      norm_num
    · rw [if_neg hlen]
  · intro hl
    rw [hcore]
    have hmin : min l 1440 = l := min_eq_left (by omega)
    rw [if_pos (by omega : (L.length : ℤ) > min l 1440), hmin]
    unfold pySliceFrom
    rw [if_neg (by omega : ¬ -l < 0)]

/-- C8 witness: the amended theorem applied at a positive limit. -/
theorem get_candles_limit_behavior_witness :
    (get_candles initState "NQ" 5).1 =
      (fallback_candles initState (querySym "NQ").1).drop
        ((fallback_candles initState (querySym "NQ").1).length - (min (5 : ℤ) 1440).toNat) :=
  (get_candles_limit_behavior initState "NQ" 5).1 (by norm_num)

/-! ### Claim C9: default size and the volume fields -/

theorem commitState_volume (st2 : ServerState) (record : Record) (symbol : Sym)
    (p : ℚ) (now : ℕ) :
    ((commitState st2 record symbol p now).symbols_data symbol).volume =
      extract_size record := by
  rw [commitState_symbols_data]
  simp [updateAt]

/-- The effect of the commit's update_candle on the candle and tick
state, for every starting state: the tick is appended with the or-1
volume whenever the in-candle guard does not fire; a fresh candle (no
candle in progress, or bucket rollover) starts with the or-1 volume; a
same-bucket update adds the or-1 volume to the candle sum. -/
theorem commitState_effects (st2 : ServerState) (record : Record) (symbol : Sym)
    (p : ℚ) (now : ℕ) :
    (¬ candleSpikeGuard st2 symbol p now →
        (commitState st2 record symbol p now).tick_buffer symbol =
          dequeAppend 10000 (st2.tick_buffer symbol)
            { time := now, price := p,
              volume := if extract_size record = 0 then 1 else extract_size record })
    ∧ (st2.current_candle symbol = none →
        (commitState st2 record symbol p now).current_candle symbol =
          some (newCandle (get_candle_time now) p (extract_size record)))
    ∧ (∀ cc, st2.current_candle symbol = some cc → cc.time ≠ get_candle_time now →
        (commitState st2 record symbol p now).current_candle symbol =
          some (newCandle (get_candle_time now) p (extract_size record)))
    ∧ (∀ cc, st2.current_candle symbol = some cc → cc.time = get_candle_time now →
        ¬ |p - (cc.high + cc.low) / 2| > 30 →
        (commitState st2 record symbol p now).current_candle symbol =
          some { cc with high := max cc.high p, low := min cc.low p, close := p, volume := cc.volume + (if extract_size record = 0 then 1 else extract_size record), tick_count := cc.tick_count + 1 }) := by
  unfold commitState
  have hcur : (commitBase st2 record symbol p now).current_candle = st2.current_candle := rfl
  refine ⟨?_, ?_, ?_, ?_⟩
  · intro hng
    rcases hc : st2.current_candle symbol with _ | cc
    · rw [update_candle_none (commitBase st2 record symbol p now) symbol p
        (extract_size record) now (by rw [hcur]; exact hc), tickAppendState_tick_buffer]
      rfl
    · by_cases hsame : cc.time = get_candle_time now
      · have hin : ¬ |p - (cc.high + cc.low) / 2| > 30 := fun habs => hng ⟨cc, hc, hsame, habs⟩
        rw [update_candle_same (commitBase st2 record symbol p now) symbol p
          (extract_size record) now cc (by rw [hcur]; exact hc) hsame hin,
          tickAppendState_tick_buffer]
        rfl
      · rw [update_candle_rollover (commitBase st2 record symbol p now) symbol p
          (extract_size record) now cc (by rw [hcur]; exact hc) hsame,
          tickAppendState_tick_buffer]
        rfl
  · intro hnone
    rw [update_candle_none (commitBase st2 record symbol p now) symbol p
      (extract_size record) now (by rw [hcur]; exact hnone), tickAppendState_current]
    dsimp only
    simp [updateAt]
  · intro cc hcc hdiff
    rw [update_candle_rollover (commitBase st2 record symbol p now) symbol p
      (extract_size record) now cc (by rw [hcur]; exact hcc) hdiff, tickAppendState_current]
    dsimp only
    simp [updateAt]
  · intro cc hcc hsame hin
    rw [update_candle_same (commitBase st2 record symbol p now) symbol p
      (extract_size record) now cc (by rw [hcur]; exact hcc) hsame hin, tickAppendState_current]
    dsimp only
    simp [updateAt]

/-- C9 record: trade price 15001, no size attribute. -/
def recC9 : Record :=
  { price := some 15001000000000, levels := none, size := none, instrument_id := none,
    stype_in_symbol := none, pretty_symbol := none, raw_symbol := none }

/-- C9 counterexample: an accepted observation with no size field stores
volume 0 in LiveState (not the claimed at-least-one unit), while the new
candle and the appended tick do get volume 1. -/
theorem live_volume_zero_when_no_size :
    ((process_record initState recC9 Sym.NQ 7).symbols_data Sym.NQ).price = some 15001
    ∧ ((process_record initState recC9 Sym.NQ 7).symbols_data Sym.NQ).volume = 0
    ∧ (process_record initState recC9 Sym.NQ 7).current_candle Sym.NQ =
        some { time := 0, open_ := 15001, high := 15001, low := 15001, close := 15001,
               volume := 1, tick_count := 1 }
    ∧ (process_record initState recC9 Sym.NQ 7).tick_buffer Sym.NQ =
        [{ time := 7, price := 15001, volume := 1 }] := by
  refine ⟨?_, ?_, ?_, ?_⟩ <;>
    norm_num [process_record, quoteState, commitState, commitBase, update_candle,
      tickAppendState, newCandle, observed_price, extract_trade_price, extract_quote,
      extract_size, get_candle_time, pyRound2, roundHalfEven, updateAt, dequeAppend,
      recC9, initState, initSymbolData]

/-- C9 (amended): for every accepted price observation whose record
carries no size field (the price is plausible and no previously accepted
price vetoes it through the spike filter), the extracted size is 0: the
LiveState volume field is set to that raw 0, while the volume-or-1
default makes the observation contribute exactly one unit wherever the
aggregator records it: the appended tick has volume 1 whenever the
in-candle spike guard does not discard the update, a freshly started
candle (none in progress, or a bucket rollover) has volume 1, and a
same-bucket update adds exactly 1 to the candle volume sum. -/
theorem size_default_volume_behavior (st : ServerState) (record : Record) (sym : Sym)
    (now : ℕ) (p : ℚ)
    (hsize : record.size = none)
    (hp : observed_price record = some p) (hfloor : p > 1000)
    (haccept : ∀ prev, (st.symbols_data sym).price = some prev →
        ¬(prev ≠ 0 ∧ |p - prev| > 50)) :
    ((process_record st record sym now).symbols_data sym).volume = 0
    ∧ (¬ candleSpikeGuard st sym p now →
        (process_record st record sym now).tick_buffer sym =
          dequeAppend 10000 (st.tick_buffer sym) { time := now, price := p, volume := 1 })
    ∧ (st.current_candle sym = none →
        (process_record st record sym now).current_candle sym =
          some { time := get_candle_time now, open_ := p, high := p, low := p, close := p, volume := 1, tick_count := 1 })
    ∧ (∀ cc, st.current_candle sym = some cc → cc.time ≠ get_candle_time now →
        (process_record st record sym now).current_candle sym =
          some { time := get_candle_time now, open_ := p, high := p, low := p, close := p, volume := 1, tick_count := 1 })
    ∧ (∀ cc, st.current_candle sym = some cc → cc.time = get_candle_time now →
        ¬ |p - (cc.high + cc.low) / 2| > 30 →
        (process_record st record sym now).current_candle sym =
          some { cc with high := max cc.high p, low := min cc.low p, close := p, volume := cc.volume + 1, tick_count := cc.tick_count + 1 }) := by
  have hsz : extract_size record = 0 := by simp [extract_size, hsize]
  have hcommit : process_record st record sym now =
      commitState (quoteState st record sym) record sym p now := by
    rcases hprev : (st.symbols_data sym).price with _ | prev
    · exact process_record_commit_none st record sym now p hp hfloor hprev
    · exact process_record_commit_small st record sym now p prev hp hfloor hprev
        (haccept prev hprev)
  rw [hcommit]
  have hcur2 : (quoteState st record sym).current_candle = st.current_candle :=
    (quoteState_candles st record sym).2.1
  have htb2 : (quoteState st record sym).tick_buffer = st.tick_buffer :=
    (quoteState_candles st record sym).2.2
  obtain ⟨he1, he2, he3, he4⟩ := commitState_effects (quoteState st record sym) record sym p now
  refine ⟨?_, ?_, ?_, ?_, ?_⟩
  · rw [commitState_volume]
    exact hsz
  · intro hng
    have hng2 : ¬ candleSpikeGuard (quoteState st record sym) sym p now := by
      rintro ⟨cc, hcc, ha, hb⟩
      rw [hcur2] at hcc
      exact hng ⟨cc, hcc, ha, hb⟩
    rw [he1 hng2, htb2, hsz]
    rfl
  · intro hnone
    rw [he2 (by rw [hcur2]; exact hnone), hsz]
    rfl
  · intro cc hcc hdiff
    rw [he3 cc (by rw [hcur2]; exact hcc) hdiff, hsz]
    rfl
  · intro cc hcc hsame hin
    rw [he4 cc (by rw [hcur2]; exact hcc) hsame hin, hsz]
    rfl

/-- C9 witness: the amended theorem applied to the concrete record with
no size field: LiveState volume 0, tick volume 1, fresh candle volume 1. -/
theorem size_default_volume_behavior_witness :
    ((process_record initState recC9 Sym.NQ 9).symbols_data Sym.NQ).volume = 0
    ∧ (process_record initState recC9 Sym.NQ 9).tick_buffer Sym.NQ =
        dequeAppend 10000 (initState.tick_buffer Sym.NQ) { time := 9, price := 15001, volume := 1 }
    ∧ (process_record initState recC9 Sym.NQ 9).current_candle Sym.NQ =
        some { time := 0, open_ := 15001, high := 15001, low := 15001, close := 15001, volume := 1, tick_count := 1 } :=
  have h := size_default_volume_behavior initState recC9 Sym.NQ 9 15001 rfl
    (by norm_num [observed_price, extract_trade_price, extract_quote, recC9,
      pyRound2, roundHalfEven])
    (by norm_num)
    (by intro prev hprev; simp [initState, initSymbolData] at hprev)
  ⟨h.1,
   h.2.1 (by rintro ⟨cc, hcc, h1, h2⟩; simp [initState] at hcc),
   h.2.2.1 (by simp [initState])⟩

/-! ### Claim C10: unknown symbols are served as NQ -/

/-- C10: a get_candles or get_ticks query whose uppercased symbol
parameter is neither NQ nor MNQ is served exactly as if the symbol were
NQ, and the response reports symbol NQ. -/
theorem unknown_symbol_served_as_nq (st : ServerState) (sp : String) (lc lt : ℤ)
    (h1 : pyUpper sp ≠ "NQ") (h2 : pyUpper sp ≠ "MNQ") :
    get_candles st sp lc = get_candles st "NQ" lc
    ∧ (get_candles st sp lc).2 = "NQ"
    ∧ get_ticks st sp lt = get_ticks st "NQ" lt
    ∧ (get_ticks st sp lt).2 = "NQ" := by
  have hcond : ¬(pyUpper sp = "NQ" ∨ pyUpper sp = "MNQ") := by
    rintro (h | h)
    exacts [h1 h, h2 h]
  have hq : querySym sp = (Sym.NQ, "NQ") := by
    unfold querySym
    simp only [if_neg hcond]
    rfl
  unfold get_candles get_ticks
  rw [hq, querySym_NQ]
  exact ⟨rfl, rfl, rfl, rfl⟩

/-- C10 witness: the theorem applied to the lowercase unknown symbol es. -/
theorem unknown_symbol_served_as_nq_witness :
    get_candles initState "es" 1 = get_candles initState "NQ" 1
    ∧ (get_candles initState "es" 1).2 = "NQ"
    ∧ get_ticks initState "es" 2 = get_ticks initState "NQ" 2
    ∧ (get_ticks initState "es" 2).2 = "NQ" :=
  unknown_symbol_served_as_nq initState "es" 1 2 (by decide) (by decide)

end Crowny
